import Mathlib

/-!
Verification development for the sidecar repository.

Shallow embedding of the parts of the code base that the verified
properties speak about:

1. the Anthropic LLM client (llm_client/src/clients/anthropic.rs):
   request mapping, the SSE streaming loop of stream_completion, and the
   completion wrapper;
2. the scratch-pad reactor (sidecar/src/agentic/symbol/scratch_pad.rs):
   reaction to LSP diagnostics and the human-anchor edit fan-out;
3. the plan executor loop (sidecar/src/bin/plan_service.rs);
4. the go-to-definition editor-bridge tool
   (sidecar/src/agentic/tool/lsp/gotodefintion.rs).

External effects (HTTP transport, serde, channels, the tokio scheduler)
are modelled as explicit oracles or as traces of emitted actions, so
every definition is executable and every reaction order is visible as
data.
-/

namespace Sidecar

/-! ### LLM client data model (llm_client/src/clients/types.rs surface used by anthropic.rs) -/

/-- Subset of the LLMType enum that the embedded code inspects.
The Anthropic client maps the three Claude models to wire strings and
rejects every other model with UnSupportedModel; gpt4O stands for the
other (non-Claude) variants of the enum. -/
inductive LLMType where
  | claudeOpus
  | claudeSonnet
  | claudeHaiku
  | gpt4O
deriving DecidableEq, Repr

/-- Roles of a semantic chat message. -/
inductive LLMClientRole where
  | system
  | user
  | assistant
  | function
deriving DecidableEq, Repr

def LLMClientRole.is_system : LLMClientRole → Bool
  | .system => true
  | _ => false

def LLMClientRole.is_user : LLMClientRole → Bool
  | .user => true
  | _ => false

def LLMClientRole.is_assistant : LLMClientRole → Bool
  | .assistant => true
  | _ => false

/-- Wire spelling of a role, as produced by role().to_string(). -/
def LLMClientRole.to_string : LLMClientRole → String
  | .system => ("system")
  | .user => ("user")
  | .assistant => ("assistant")
  | .function => ("function")

/-- One semantic chat message: role plus content. -/
structure LLMClientMessage where
  role : LLMClientRole
  content : String
deriving DecidableEq, Repr

/-- Semantic completion request. Only the fields read by the Anthropic
client are modelled; temperature is an f32 in the source and is carried
as an exact rational since it is never inspected, only copied. -/
structure LLMClientCompletionRequest where
  model : LLMType
  messages : List LLMClientMessage
  temperature : Rat
  max_tokens : Option Nat
deriving DecidableEq, Repr

/-- Item pushed into the streaming sink, built with
LLMClientCompletionResponse::new(answer_up_until_now, delta, model). -/
structure LLMClientCompletionResponse where
  answer_up_until_now : String
  delta : Option String
  model : String
deriving DecidableEq, Repr

/-- API keys held by the provider configuration; the Anthropic client
accepts only the anthropic variant. -/
inductive LLMProviderAPIKeys where
  | anthropic (api_key : String)
  | openAI (api_key : String)
deriving DecidableEq, Repr

/-- Errors of the LLM client surfaced by the embedded Anthropic code:
wrong key variant, unsupported model, and reqwest transport or non-2xx
HTTP failures (both reach the caller through the From conversion on ?). -/
inductive LLMClientError where
  | wrongAPIKeyType
  | unSupportedModel
  | reqwestError (message : String)
deriving DecidableEq, Repr

/-! ### Anthropic wire request (anthropic.rs, AnthropicRequest) -/

/-- Wire message of the Anthropic request body. -/
structure AnthropicMessage where
  role : String
  content : String
deriving DecidableEq, Repr

/-- Anthropic wire request body. -/
structure AnthropicRequest where
  system : Option String
  messages : List AnthropicMessage
  temperature : Rat
  stream : Bool
  max_tokens : Option Nat
  model : String
deriving DecidableEq, Repr

/-- AnthropicRequest::from_client_completion_request: extract the first
system message into the system field, keep user and assistant messages
in order, default max_tokens to 8192 for ClaudeSonnet and 4096 for every
other model when the request carries none. -/
def AnthropicRequest.from_client_completion_request
    (completion_request : LLMClientCompletionRequest) (model_str : String) : AnthropicRequest :=
  let model := completion_request.model
  let temperature := completion_request.temperature
  let max_tokens : Option Nat :=
    match completion_request.max_tokens with
    | some tokens => some tokens
    | none =>
      if model = LLMType.claudeSonnet then some 8192 else some 4096
  let messages := completion_request.messages
  let system_message :=
    (messages.find? (fun message => message.role.is_system)).map
      (fun message => message.content)
  let normal_conversation :=
    (messages.filter
        (fun message => message.role.is_user || message.role.is_assistant)).map
      (fun message => AnthropicMessage.mk message.role.to_string message.content)
  ⟨system_message, normal_conversation, temperature, true, max_tokens, model_str⟩

/-! ### SSE event stream (anthropic.rs, AnthropicEvent and the while-let loop) -/

/-- Parsed SSE event payloads (enum AnthropicEvent, serde tag "type"). -/
inductive AnthropicEvent where
  | messageStart
  | contentBlockStart (index : Nat) (text : String)
  | ping
  | contentBlockDelta (index : Nat) (text : String)
  | contentBlockStop (index : Nat)
  | messageDelta
  | messageStop
deriving DecidableEq, Repr

/-- Decidable equality for Except values, needed to evaluate concrete
stream runs. -/
instance {ε α : Type} [DecidableEq ε] [DecidableEq α] : DecidableEq (Except ε α) := fun a b =>
  match a, b with
  | Except.ok x, Except.ok y =>
    if h : x = y then isTrue (by rw [h]) else isFalse (by intro hc; cases hc; exact h rfl)
  | Except.error x, Except.error y =>
    if h : x = y then isTrue (by rw [h]) else isFalse (by intro hc; cases hc; exact h rfl)
  | Except.ok _, Except.error _ => isFalse (by intro hc; cases hc)
  | Except.error _, Except.ok _ => isFalse (by intro hc; cases hc)

/-- One item yielded by the eventsource byte stream. The event variant
carries the result of serde_json::from_str::<AnthropicEvent>(event.data)
(serde and the SSE wire format are external libraries, so the parse
outcome is the input of the embedding); transportError models an Err
item of the underlying stream, on which the while-let loop exits. -/
inductive SSEStreamItem where
  | event (parsed : Except Unit AnthropicEvent)
  | transportError
deriving DecidableEq, Repr

/-- The while-let event loop of stream_completion. Arguments: the wire
model string, the sink oracle (whether the receiver is still alive for
the n-th send; the source ignores the send result), the stream items,
the buffered_string accumulator and the number of sends attempted so
far. Returns the responses actually delivered into the sink and the
final buffered_string, which the source returns as Ok even after a
parse-error break. -/
def stream_loop (model_str : String) (sink_accepts : Nat → Bool) :
    List SSEStreamItem → String → Nat → List LLMClientCompletionResponse × String
  | [], buffered_string, _ => ([], buffered_string)
  | SSEStreamItem.transportError :: _, buffered_string, _ => ([], buffered_string)
  | SSEStreamItem.event parsed :: rest, buffered_string, sends =>
    match parsed with
    | Except.ok (AnthropicEvent.contentBlockStart _ text) =>
      let buffered2 := buffered_string ++ text
      let out := stream_loop model_str sink_accepts rest buffered2 (sends + 1)
      (if sink_accepts sends then
          LLMClientCompletionResponse.mk buffered2 (some text) model_str :: out.1
        else out.1,
        out.2)
    | Except.ok (AnthropicEvent.contentBlockDelta _ text) =>
      let buffered2 := buffered_string ++ text
      let out := stream_loop model_str sink_accepts rest buffered2 (sends + 1)
      (if sink_accepts sends then
          LLMClientCompletionResponse.mk buffered2 (some text) model_str :: out.1
        else out.1,
        out.2)
    | Except.ok (AnthropicEvent.contentBlockStop _) =>
      stream_loop model_str sink_accepts rest buffered_string sends
    | Except.error _ => ([], buffered_string)
    | Except.ok _ =>
      stream_loop model_str sink_accepts rest buffered_string sends

/-- AnthropicClient::get_model_string. -/
def get_model_string : LLMType → Except LLMClientError String
  | LLMType.claudeOpus => Except.ok ("claude-3-opus-20240229")
  | LLMType.claudeSonnet => Except.ok ("claude-3-5-sonnet-20240620")
  | LLMType.claudeHaiku => Except.ok ("claude-3-haiku-20240307")
  | _ => Except.error LLMClientError.unSupportedModel

/-- AnthropicClient::generate_api_bearer_key. -/
def generate_api_bearer_key : LLMProviderAPIKeys → Except LLMClientError String
  | LLMProviderAPIKeys.anthropic api_key => Except.ok api_key
  | _ => Except.error LLMClientError.wrongAPIKeyType

/-- Outcome of the HTTP POST of one stream_completion call, an oracle
for the external reqwest client: send_error is a failing send(),
status_success reflects status().is_success(), error_body is the body
read on a non-2xx status, events are the SSE items of the body stream. -/
structure AnthropicHttpOutcome where
  send_error : Option String
  status_success : Bool
  error_body : String
  events : List SSEStreamItem
deriving DecidableEq, Repr

/-- AnthropicClient::stream_completion: resolve the model string, build
the bearer key header, POST, surface transport and non-2xx failures as
errors, then run the SSE loop; the loop result is returned as Ok. The
first component is the list of sink items actually delivered. -/
def stream_completion (sink_accepts : Nat → Bool) (api_key : LLMProviderAPIKeys)
    (request : LLMClientCompletionRequest) (http : AnthropicHttpOutcome) :
    List LLMClientCompletionResponse × Except LLMClientError String :=
  match get_model_string request.model with
  | Except.error e => ([], Except.error e)
  | Except.ok model_str =>
    match generate_api_bearer_key api_key with
    | Except.error e => ([], Except.error e)
    | Except.ok _ =>
      match http.send_error with
      | some msg => ([], Except.error (LLMClientError.reqwestError msg))
      | none =>
        if http.status_success then
          let out := stream_loop model_str sink_accepts http.events ("") 0
          (out.1, Except.ok out.2)
        else
          ([], Except.error (LLMClientError.reqwestError http.error_body))

/-- AnthropicClient::completion: create a fresh unbounded channel, drop
the receiver immediately, and delegate to stream_completion; with the
receiver dropped every sink send fails, which the loop ignores. -/
def completion (api_key : LLMProviderAPIKeys) (request : LLMClientCompletionRequest)
    (http : AnthropicHttpOutcome) : Except LLMClientError String :=
  (stream_completion (fun _ => false) api_key request http).2

/-- Delta text of a sink item (None is treated as empty; the source
always sends Some). -/
def response_delta_text (r : LLMClientCompletionResponse) : String :=
  r.delta.getD ("")

/-- Concatenation of the delta texts of a list of sink items. -/
def concat_delta_texts : List LLMClientCompletionResponse → String
  | [] => ("")
  | r :: rs => response_delta_text r ++ concat_delta_texts rs

/-- Text accumulated by the SSE loop over a list of items that contains
no break (content_block_start and content_block_delta contribute their
text, other events nothing). -/
def sse_text : List SSEStreamItem → String
  | [] => ("")
  | SSEStreamItem.event (Except.ok (AnthropicEvent.contentBlockStart _ text)) :: rest =>
    text ++ sse_text rest
  | SSEStreamItem.event (Except.ok (AnthropicEvent.contentBlockDelta _ text)) :: rest =>
    text ++ sse_text rest
  | _ :: rest => sse_text rest

/-- Items on which the while-let loop keeps running: a successfully
parsed event (any variant). -/
def item_continues : SSEStreamItem → Bool
  | SSEStreamItem.event (Except.ok _) => true
  | _ => false

/-! ### Scratch-pad reactor (sidecar/src/agentic/symbol/scratch_pad.rs) -/

/-- Entry of the files_context cache (struct ScratchPadFilesActive). -/
structure ScratchPadFilesActive where
  file_content : String
  file_path : String
deriving DecidableEq, Repr

/-- One LSP diagnostic pushed by the editor
(sidecar/src/agentic/symbol/events/lsp.rs; the range field is unused by
the scratch pad and omitted). -/
structure LSPDiagnosticError where
  fs_file_path : String
  diagnostic : String
deriving DecidableEq, Repr

/-- LSP signals from the editor. The goDefinition payload
(Vec<OutlineNode>) is never read by the scratch pad and is omitted. -/
inductive LSPSignal where
  | diagnostics (d : List LSPDiagnosticError)
  | goDefinition
deriving DecidableEq, Repr

/-- Mutable state owned by the ScratchPadAgent (the three mutexes);
storage_fs_path is immutable configuration and passed separately. -/
structure ScratchPadState where
  focussing : Bool
  files_context : List ScratchPadFilesActive
  extra_context : String
deriving DecidableEq, Repr

/-- Outbound tool-box calls made by the diagnostics reaction. -/
inductive ToolBoxCall where
  | scratch_pad_diagnostics (storage_fs_path : String) (diagnostic_messages : List String)
      (files_context : List String) (extra_context : String)
deriving DecidableEq, Repr

/-- XML rendering of one diagnostic, exactly the format string of
react_to_diagnostics. -/
def diagnostic_format (d : LSPDiagnosticError) : String :=
  ("<fs_file_path>\n") ++ d.fs_file_path ++ ("\n</fs_file_path>\n<message>\n")
    ++ d.diagnostic ++ ("\n</message>")

/-- ScratchPadAgent::react_to_diagnostics: keep diagnostics whose file
path is in files_context, render them, return early when none survive,
otherwise make the single scratch_pad_diagnostics tool-box (LLM) call.
The state is only read, never written. -/
def react_to_diagnostics (storage_fs_path : String) (st : ScratchPadState)
    (diagnostics : List LSPDiagnosticError) : ScratchPadState × List ToolBoxCall :=
  let file_paths_focussed := st.files_context.map (fun file_content => file_content.file_path)
  let diagnostic_messages :=
    (diagnostics.filter
        (fun diagnostic => file_paths_focussed.contains diagnostic.fs_file_path)).map
      diagnostic_format
  if diagnostic_messages.isEmpty then
    (st, [])
  else
    (st,
      [ToolBoxCall.scratch_pad_diagnostics storage_fs_path diagnostic_messages
        (st.files_context.map (fun files_context => files_context.file_content))
        st.extra_context])

/-- ScratchPadAgent::react_to_lsp_signal: read the focussing flag; when
focussed, return without any effect; otherwise dispatch the signal. The
source match has an arm only for Diagnostics, so goDefinition has no
effect in the sampled code. -/
def react_to_lsp_signal (storage_fs_path : String) (st : ScratchPadState)
    (lsp_signal : LSPSignal) : ScratchPadState × List ToolBoxCall :=
  if st.focussing then
    (st, [])
  else
    match lsp_signal with
    | LSPSignal.diagnostics diagnostics => react_to_diagnostics storage_fs_path st diagnostics
    | LSPSignal.goDefinition => (st, [])

/-! ### Human-anchor fan-out (scratch_pad.rs, human_message_anchor) -/

/-- Reply value of a symbol event oneshot channel; the scratch pad never
inspects it, only collects it into edits_done. -/
structure SymbolEventResponse where
  response : String
deriving DecidableEq, Repr

/-- Events re-emitted on the reaction_sender queue by
human_message_anchor. -/
inductive ReactionEvent where
  | humanAnchor
  | editorStateChange (edits_done : List SymbolEventResponse) (user_query : String)
deriving DecidableEq, Repr

/-- Observable actions of human_message_anchor, in program order.
Oneshot channels are named by the index of the fanned-out request. -/
inductive AnchorAction where
  | symbol_to_edit_request
  | reaction_send (e : ReactionEvent)
  | set_focussing (value : Bool)
  | send_symbol_event (channel : Nat)
  | await_reply (channel : Nat)
  | ui_code_iteration_finished
deriving DecidableEq, Repr

/-- Fan-out section of human_message_anchor: per symbol, create a fresh
oneshot channel, send the SymbolEventMessage on the symbol event bus and
await the receiver. -/
def fan_out_edits (n : Nat) : List AnchorAction :=
  ((List.range n).map
      (fun i => [AnchorAction.send_symbol_event i, AnchorAction.await_reply i])).flatten

/-- Replies collected by the fan-out: receiver.await results filtered
through .ok(), so replies whose channel failed are discarded. The reply
oracle gives the oneshot outcome per channel (error = RecvError). -/
def edits_done (n : Nat) (replies : Nat → Except Unit SymbolEventResponse) :
    List SymbolEventResponse :=
  (List.range n).filterMap (fun i => (replies i).toOption)

/-- ScratchPadAgent::human_message_anchor, as the trace of its effects
in source order: the symbol_to_edit_request tool call, re-emission of
the anchor on the reaction queue, focussing := true, the fan-out over
the n edit requests with await of every reply, emission of
EditorStateChange with the successful replies, focussing := false, and
the final UI event. Returns the final state and the trace. -/
def human_message_anchor (st : ScratchPadState) (user_query : String) (n : Nat)
    (replies : Nat → Except Unit SymbolEventResponse) :
    ScratchPadState × List AnchorAction :=
  (⟨false, st.files_context, st.extra_context⟩,
    [AnchorAction.symbol_to_edit_request,
      AnchorAction.reaction_send ReactionEvent.humanAnchor,
      AnchorAction.set_focussing true]
    ++ fan_out_edits n
    ++ [AnchorAction.reaction_send
          (ReactionEvent.editorStateChange (edits_done n replies) user_query),
        AnchorAction.set_focussing false,
        AnchorAction.ui_code_iteration_finished])

/-- Buffer size passed to buffer_unordered in human_message_anchor. -/
def buffer_unordered_limit : Nat := 100

/-- Scheduler events of a buffer_unordered execution: a pending future
is started or a running future completes. -/
inductive PollEvent where
  | begin_future (i : Nat)
  | end_future (i : Nat)
deriving DecidableEq, Repr

/-- Number of futures in flight after a list of scheduler events,
starting from k in flight. -/
def in_flight (k : Nat) : List PollEvent → Nat
  | [] => k
  | PollEvent.begin_future _ :: rest => in_flight (k + 1) rest
  | PollEvent.end_future _ :: rest => in_flight (k - 1) rest

/-- Modelled from the spec and the futures crate contract of
buffer_unordered(limit): an execution is admissible when a future is
started only while strictly fewer than limit are in flight, and only a
running future can complete. -/
def admissible (limit : Nat) : Nat → List PollEvent → Bool
  | _, [] => true
  | k, PollEvent.begin_future _ :: rest =>
    decide (k < limit) && admissible limit (k + 1) rest
  | k, PollEvent.end_future _ :: rest =>
    decide (0 < k) && admissible limit (k - 1) rest

/-- Channel of a send_symbol_event action, when the action is one. -/
def send_channel : AnchorAction → Option Nat
  | AnchorAction.send_symbol_event c => some c
  | _ => none

/-- Channel of an await_reply action, when the action is one. -/
def await_channel : AnchorAction → Option Nat
  | AnchorAction.await_reply c => some c
  | _ => none

/-- Test for the EditorStateChange emission on the reaction queue. -/
def is_editor_state_change : AnchorAction → Bool
  | AnchorAction.reaction_send (ReactionEvent.editorStateChange _ _) => true
  | _ => false

/-! ### Plan executor loop (sidecar/src/bin/plan_service.rs) -/

/-- One step of a plan; only the fields the loop touches are modelled. -/
structure PlanStep where
  title : String
  instructions : String
deriving DecidableEq, Repr

/-- Modelled from the spec: the Plan type of the plan service (its
module is not among the sampled sources; plan_service.rs is its caller).
The spec gives Plan as an ordered step list plus a checkpoint index,
persisted as JSON. -/
structure Plan where
  steps : List PlanStep
  checkpoint : Nat
deriving DecidableEq, Repr

/-- Modelled from the spec: increment_checkpoint() is the only mutation
of a Plan and advances the checkpoint by one. -/
def Plan.increment_checkpoint (p : Plan) : Plan :=
  ⟨p.steps, p.checkpoint + 1⟩

/-- One "1"/"next" iteration of the executor loop in plan_service.rs:
reload the plan from disk, fetch steps[checkpoint] (the source unwraps,
so a missing step is modelled as none = panic), run execute_step (its
success is the outcome oracle); on success increment the checkpoint and
save the plan, on failure only print. The returned plan is the persisted
state before the next iteration. -/
def plan_loop_iteration (disk : Plan) (outcome : Bool) : Option Plan :=
  match disk.steps.get? disk.checkpoint with
  | none => none
  | some _ =>
    if outcome then
      some disk.increment_checkpoint
    else
      some disk

/-- The executor loop over a list of execute_step outcomes, threading
the persisted plan; none propagates a panic of an iteration. -/
def plan_loop : Plan → List Bool → Option Plan
  | disk, [] => some disk
  | disk, outcome :: rest =>
    match plan_loop_iteration disk outcome with
    | none => none
    | some disk2 => plan_loop disk2 rest

/-! ### Go-to-definition editor bridge (sidecar/src/agentic/tool/lsp/gotodefintion.rs) -/

/-- Position in a document (chunking/text_document.rs constructor order:
line, character, byte offset). -/
structure Position where
  line : Nat
  character : Nat
  byte_offset : Nat
deriving DecidableEq, Repr

/-- Range of a document span. -/
structure Range where
  start_position : Position
  end_position : Position
deriving DecidableEq, Repr

/-- Request payload of the go-to-definition tool. -/
structure GoToDefinitionRequest where
  fs_file_path : String
  editor_url : String
  position : Position
deriving DecidableEq, Repr

/-- One definition location of the response. -/
structure DefinitionPathAndRange where
  fs_file_path : String
  range : Range
deriving DecidableEq, Repr

/-- Response payload of the go-to-definition tool. -/
structure GoToDefinitionResponse where
  definitions : List DefinitionPathAndRange
deriving DecidableEq, Repr

/-- Tool inputs: the go-to-definition variant plus a representative
other variant of the large ToolInput enum, enough to express dispatch on
the wrong variant. -/
inductive ToolInput where
  | goToDefinition (request : GoToDefinitionRequest)
  | openFile (fs_file_path : String)
deriving DecidableEq, Repr

/-- Tool errors used by the embedded handler: the wrong-variant error of
is_go_to_definition, the transport error and the serde error. -/
inductive ToolError where
  | wrongToolInput
  | errorCommunicatingWithEditor
  | serdeConversionFailed
deriving DecidableEq, Repr

/-- Tool outputs (the go-to-definition variant). -/
inductive ToolOutput where
  | goToDefinition (response : GoToDefinitionResponse)
deriving DecidableEq, Repr

/-- ToolInput::is_go_to_definition: yield the request when the input is
the go-to-definition variant, fail otherwise. -/
def ToolInput.is_go_to_definition : ToolInput → Except ToolError GoToDefinitionRequest
  | ToolInput.goToDefinition request => Except.ok request
  | _ => Except.error ToolError.wrongToolInput

/-- Oracles for the external effects of one invoke call:
to_string_result is the outcome of serde_json::to_string on the request,
post_result maps (endpoint, body) to the transport outcome of the
reqwest POST and, on 200, the outcome of response.json() deserialization
into GoToDefinitionResponse. -/
structure EditorHttpWorld where
  to_string_result : GoToDefinitionRequest → Except Unit String
  post_result : String → String → Except Unit (Except Unit GoToDefinitionResponse)

/-- LSPGoToDefinition::invoke: extract the request, serialize it (serde
failure becomes SerdeConversionFailed), POST it to
editor_url ++ /go_to_definition (transport failure becomes
ErrorCommunicatingWithEditor), deserialize the response (failure becomes
SerdeConversionFailed). The second component records the POST actually
performed as (endpoint, body). -/
def LSPGoToDefinition.invoke (world : EditorHttpWorld) (input : ToolInput) :
    Except ToolError ToolOutput × Option (String × String) :=
  match input.is_go_to_definition with
  | Except.error e => (Except.error e, none)
  | Except.ok context =>
    let editor_endpoint := context.editor_url ++ ("/go_to_definition")
    match world.to_string_result context with
    | Except.error _ => (Except.error ToolError.serdeConversionFailed, none)
    | Except.ok body =>
      match world.post_result editor_endpoint body with
      | Except.error _ =>
        (Except.error ToolError.errorCommunicatingWithEditor, some (editor_endpoint, body))
      | Except.ok json_result =>
        match json_result with
        | Except.error _ =>
          (Except.error ToolError.serdeConversionFailed, some (editor_endpoint, body))
        | Except.ok response =>
          (Except.ok (ToolOutput.goToDefinition response), some (editor_endpoint, body))

/-! ## Helper lemmas about the SSE loop -/

/-- The final buffered string of the SSE loop does not depend on the
sink oracle or on the send counter: every send result is discarded. -/
theorem stream_loop_snd_sink (m : String) (s₁ s₂ : Nat → Bool) :
    ∀ (items : List SSEStreamItem) (buffered : String) (n₁ n₂ : Nat),
      (stream_loop m s₁ items buffered n₁).2 = (stream_loop m s₂ items buffered n₂).2 := by
  intro items
  induction items with
  | nil => intro buffered n₁ n₂; rfl
  | cons head rest ih =>
    intro buffered n₁ n₂
    cases head with
    | transportError => rfl
    | event parsed =>
      cases parsed with
      | error u => rfl
      | ok ev =>
        cases ev with
        | contentBlockStart i t =>
          simpa [stream_loop] using ih (buffered ++ t) (n₁ + 1) (n₂ + 1)
        | contentBlockDelta i t =>
          simpa [stream_loop] using ih (buffered ++ t) (n₁ + 1) (n₂ + 1)
        | contentBlockStop i => simpa [stream_loop] using ih buffered n₁ n₂
        | messageStart => simpa [stream_loop] using ih buffered n₁ n₂
        | ping => simpa [stream_loop] using ih buffered n₁ n₂
        | messageDelta => simpa [stream_loop] using ih buffered n₁ n₂
        | messageStop => simpa [stream_loop] using ih buffered n₁ n₂

/-- With a live sink, the final buffered string equals the starting
buffer followed by the delta texts of everything delivered. -/
theorem stream_loop_snd_concat (m : String) :
    ∀ (items : List SSEStreamItem) (buffered : String) (n : Nat),
      (stream_loop m (fun _ => true) items buffered n).2
        = buffered ++ concat_delta_texts (stream_loop m (fun _ => true) items buffered n).1 := by
  intro items
  induction items with
  | nil => intro buffered n; simp [stream_loop, concat_delta_texts]
  | cons head rest ih =>
    intro buffered n
    cases head with
    | transportError => simp [stream_loop, concat_delta_texts]
    | event parsed =>
      cases parsed with
      | error u => simp [stream_loop, concat_delta_texts]
      | ok ev =>
        cases ev with
        | contentBlockStart i t =>
          simp [stream_loop, concat_delta_texts, response_delta_text, ih (buffered ++ t) (n + 1),
            String.append_assoc]
        | contentBlockDelta i t =>
          simp [stream_loop, concat_delta_texts, response_delta_text, ih (buffered ++ t) (n + 1),
            String.append_assoc]
        | contentBlockStop i => simpa [stream_loop] using ih buffered n
        | messageStart => simpa [stream_loop] using ih buffered n
        | ping => simpa [stream_loop] using ih buffered n
        | messageDelta => simpa [stream_loop] using ih buffered n
        | messageStop => simpa [stream_loop] using ih buffered n

/-- With a live sink, each delivered item carries as cumulative text the
starting buffer followed by the deltas delivered up to and including it. -/
theorem stream_loop_get_cumulative (m : String) :
    ∀ (items : List SSEStreamItem) (buffered : String) (n : Nat) (i : Nat)
      (h : i < (stream_loop m (fun _ => true) items buffered n).1.length),
      ((stream_loop m (fun _ => true) items buffered n).1.get ⟨i, h⟩).answer_up_until_now
        = buffered
          ++ concat_delta_texts ((stream_loop m (fun _ => true) items buffered n).1.take (i + 1)) := by
  intro items
  induction items with
  | nil => intro buffered n i h; simp [stream_loop] at h
  | cons head rest ih =>
    intro buffered n i h
    cases head with
    | transportError => simp [stream_loop] at h
    | event parsed =>
      cases parsed with
      | error u => simp [stream_loop] at h
      | ok ev =>
        cases ev with
        | contentBlockStart idx t =>
          cases i with
          | zero => simp [stream_loop, concat_delta_texts, response_delta_text]
          | succ i2 =>
            have h2 : i2 < (stream_loop m (fun _ => true) rest (buffered ++ t) (n + 1)).1.length := by
              simp [stream_loop] at h
              omega
            have := ih (buffered ++ t) (n + 1) i2 h2
            simp [stream_loop, concat_delta_texts, response_delta_text]
            rw [← String.append_assoc]
            exact this
        | contentBlockDelta idx t =>
          cases i with
          | zero => simp [stream_loop, concat_delta_texts, response_delta_text]
          | succ i2 =>
            have h2 : i2 < (stream_loop m (fun _ => true) rest (buffered ++ t) (n + 1)).1.length := by
              simp [stream_loop] at h
              omega
            have := ih (buffered ++ t) (n + 1) i2 h2
            simp [stream_loop, concat_delta_texts, response_delta_text]
            rw [← String.append_assoc]
            exact this
        | contentBlockStop idx =>
          have h2 : i < (stream_loop m (fun _ => true) rest buffered n).1.length := by
            simpa [stream_loop] using h
          simpa [stream_loop] using ih buffered n i h2
        | messageStart =>
          have h2 : i < (stream_loop m (fun _ => true) rest buffered n).1.length := by
            simpa [stream_loop] using h
          simpa [stream_loop] using ih buffered n i h2
        | ping =>
          have h2 : i < (stream_loop m (fun _ => true) rest buffered n).1.length := by
            simpa [stream_loop] using h
          simpa [stream_loop] using ih buffered n i h2
        | messageDelta =>
          have h2 : i < (stream_loop m (fun _ => true) rest buffered n).1.length := by
            simpa [stream_loop] using h
          simpa [stream_loop] using ih buffered n i h2
        | messageStop =>
          have h2 : i < (stream_loop m (fun _ => true) rest buffered n).1.length := by
            simpa [stream_loop] using h
          simpa [stream_loop] using ih buffered n i h2

/-- Running the loop into a parse error processes exactly the break-free
items before the error and returns their accumulated text. -/
theorem stream_loop_break_at_error (m : String) (sink_accepts : Nat → Bool) :
    ∀ (pre : List SSEStreamItem), (∀ e ∈ pre, item_continues e = true) →
      ∀ (u : Unit) (suf : List SSEStreamItem) (buffered : String) (n : Nat),
        (stream_loop m sink_accepts
            (pre ++ SSEStreamItem.event (Except.error u) :: suf) buffered n).2
          = buffered ++ sse_text pre := by
  intro pre
  induction pre with
  | nil => intro _ u suf buffered n; simp [stream_loop, sse_text]
  | cons head rest ih =>
    intro hcont u suf buffered n
    have hhead : item_continues head = true := hcont head (by simp)
    have hrest : ∀ e ∈ rest, item_continues e = true := by
      intro e he; exact hcont e (by simp [he])
    cases head with
    | transportError => simp [item_continues] at hhead
    | event parsed =>
      cases parsed with
      | error v => simp [item_continues] at hhead
      | ok ev =>
        cases ev with
        | contentBlockStart idx t =>
          simp [stream_loop, sse_text, ih hrest u suf (buffered ++ t) (n + 1),
            String.append_assoc]
        | contentBlockDelta idx t =>
          simp [stream_loop, sse_text, ih hrest u suf (buffered ++ t) (n + 1),
            String.append_assoc]
        | contentBlockStop idx => simpa [stream_loop, sse_text] using ih hrest u suf buffered n
        | messageStart => simpa [stream_loop, sse_text] using ih hrest u suf buffered n
        | ping => simpa [stream_loop, sse_text] using ih hrest u suf buffered n
        | messageDelta => simpa [stream_loop, sse_text] using ih hrest u suf buffered n
        | messageStop => simpa [stream_loop, sse_text] using ih hrest u suf buffered n

/-- Reduction of stream_completion to the SSE loop when the model is
supported, the key is an Anthropic key, and the HTTP round trip reaches
a 2xx response. -/
theorem stream_completion_reduces (sink_accepts : Nat → Bool)
    (api_key : LLMProviderAPIKeys) (request : LLMClientCompletionRequest)
    (http : AnthropicHttpOutcome) (m s : String)
    (hm : get_model_string request.model = Except.ok m)
    (hk : api_key = LLMProviderAPIKeys.anthropic s)
    (hs : http.send_error = none)
    (hst : http.status_success = true) :
    stream_completion sink_accepts api_key request http
      = ((stream_loop m sink_accepts http.events ("") 0).1,
          Except.ok (stream_loop m sink_accepts http.events ("") 0).2) := by
  subst hk
  unfold stream_completion
  rw [hm]
  simp [generate_api_bearer_key, hs, hst]

/-! ## Claim theorems -/

/-- C1 counterexample: one delta ("a") arrives and then an SSE payload
fails to parse; stream_completion pushes the delta and returns the
accumulated text as a success (Except.ok), not as an error, refuting
the claim that a PartialStream or ParseError error is returned. -/
theorem C1_counterexample :
    stream_completion (fun _ => true) (LLMProviderAPIKeys.anthropic ("key"))
        ⟨LLMType.claudeSonnet, [⟨LLMClientRole.user, ("hi")⟩], 0, none⟩
        ⟨none, true, (""),
          [SSEStreamItem.event (Except.ok (AnthropicEvent.contentBlockDelta 0 ("a"))),
            SSEStreamItem.event (Except.error ())]⟩
      = ([⟨("a"), some ("a"), ("claude-3-5-sonnet-20240620")⟩], Except.ok ("a")) := by
  decide

/-- C1 (amended): when an SSE event payload fails to parse,
stream_completion terminates the stream (the items after the error are
never processed) and returns the text accumulated so far as a success,
whether or not any delta had been emitted; no PartialStream or
ParseError error is produced. -/
theorem C1_parse_error_returns_accumulated_ok (sink_accepts : Nat → Bool)
    (api_key : LLMProviderAPIKeys) (request : LLMClientCompletionRequest)
    (http : AnthropicHttpOutcome) (m s : String) (pre suf : List SSEStreamItem)
    (hm : get_model_string request.model = Except.ok m)
    (hk : api_key = LLMProviderAPIKeys.anthropic s)
    (hs : http.send_error = none)
    (hst : http.status_success = true)
    (hev : http.events = pre ++ SSEStreamItem.event (Except.error ()) :: suf)
    (hpre : ∀ e ∈ pre, item_continues e = true) :
    (stream_completion sink_accepts api_key request http).2 = Except.ok (sse_text pre) := by
  rw [stream_completion_reduces sink_accepts api_key request http m s hm hk hs hst, hev]
  rw [stream_loop_break_at_error m sink_accepts pre hpre () suf ("") 0]
  simp

/-- Witness for C1 (amended): a concrete stream with one delta before
the malformed payload returns Ok "a". -/
theorem C1_parse_error_returns_accumulated_ok_witness :
    (stream_completion (fun _ => true) (LLMProviderAPIKeys.anthropic ("key"))
        ⟨LLMType.claudeOpus, [⟨LLMClientRole.user, ("hi")⟩], 0, none⟩
        ⟨none, true, (""),
          [SSEStreamItem.event (Except.ok (AnthropicEvent.contentBlockDelta 0 ("a"))),
            SSEStreamItem.event (Except.error ()),
            SSEStreamItem.event (Except.ok (AnthropicEvent.contentBlockDelta 1 ("b")))]⟩).2
      = Except.ok (sse_text [SSEStreamItem.event
          (Except.ok (AnthropicEvent.contentBlockDelta 0 ("a")))]) :=
  C1_parse_error_returns_accumulated_ok (fun _ => true)
    (LLMProviderAPIKeys.anthropic ("key"))
    ⟨LLMType.claudeOpus, [⟨LLMClientRole.user, ("hi")⟩], 0, none⟩
    ⟨none, true, (""),
      [SSEStreamItem.event (Except.ok (AnthropicEvent.contentBlockDelta 0 ("a"))),
        SSEStreamItem.event (Except.error ()),
        SSEStreamItem.event (Except.ok (AnthropicEvent.contentBlockDelta 1 ("b")))]⟩
    ("claude-3-opus-20240229") ("key")
    [SSEStreamItem.event (Except.ok (AnthropicEvent.contentBlockDelta 0 ("a")))]
    [SSEStreamItem.event (Except.ok (AnthropicEvent.contentBlockDelta 1 ("b")))]
    rfl rfl rfl rfl rfl (by decide)

/-- C3: with a live sink, stream_completion delivers items whose
cumulative text is the concatenation, in arrival order, of the delta
texts delivered so far; the returned string is the concatenation of all
delivered deltas and equals the cumulative text of the final item. -/
theorem C3_cumulative_is_concat_of_deltas
    (api_key : LLMProviderAPIKeys) (request : LLMClientCompletionRequest)
    (http : AnthropicHttpOutcome) (m s : String)
    (hm : get_model_string request.model = Except.ok m)
    (hk : api_key = LLMProviderAPIKeys.anthropic s)
    (hs : http.send_error = none)
    (hst : http.status_success = true) :
    stream_completion (fun _ => true) api_key request http
        = ((stream_loop m (fun _ => true) http.events ("") 0).1,
            Except.ok (stream_loop m (fun _ => true) http.events ("") 0).2)
    ∧ (stream_loop m (fun _ => true) http.events ("") 0).2
        = concat_delta_texts (stream_loop m (fun _ => true) http.events ("") 0).1
    ∧ (∀ (i : Nat) (h : i < (stream_loop m (fun _ => true) http.events ("") 0).1.length),
        ((stream_loop m (fun _ => true) http.events ("") 0).1.get ⟨i, h⟩).answer_up_until_now
          = concat_delta_texts
              ((stream_loop m (fun _ => true) http.events ("") 0).1.take (i + 1)))
    ∧ ∀ (h2 : (stream_loop m (fun _ => true) http.events ("") 0).1 ≠ []),
        ((stream_loop m (fun _ => true) http.events ("") 0).1.getLast h2).answer_up_until_now
          = (stream_loop m (fun _ => true) http.events ("") 0).2 := by
  refine ⟨stream_completion_reduces (fun _ => true) api_key request http m s hm hk hs hst,
    ?_, ?_, ?_⟩
  · simpa using stream_loop_snd_concat m http.events ("") 0
  · intro i h
    simpa using stream_loop_get_cumulative m http.events ("") 0 i h
  · intro h2
    have hlen : 0 < (stream_loop m (fun _ => true) http.events ("") 0).1.length :=
      List.length_pos.2 h2
    have hget := stream_loop_get_cumulative m http.events ("") 0
      ((stream_loop m (fun _ => true) http.events ("") 0).1.length - 1) (by omega)
    rw [List.getLast_eq_getElem]
    have htake : ((stream_loop m (fun _ => true) http.events ("") 0).1.length - 1) + 1
        = (stream_loop m (fun _ => true) http.events ("") 0).1.length := by omega
    rw [stream_loop_snd_concat m http.events ("") 0]
    have := hget
    rw [htake, List.take_length] at this
    simpa using this

/-- Witness for C3 at a concrete two-delta stream. -/
theorem C3_cumulative_is_concat_of_deltas_witness :
    ((stream_loop ("claude-3-haiku-20240307") (fun _ => true)
          [SSEStreamItem.event (Except.ok (AnthropicEvent.contentBlockStart 0 ("a"))),
            SSEStreamItem.event (Except.ok (AnthropicEvent.contentBlockDelta 0 ("b")))]
          ("") 0).2
        = concat_delta_texts (stream_loop ("claude-3-haiku-20240307") (fun _ => true)
            [SSEStreamItem.event (Except.ok (AnthropicEvent.contentBlockStart 0 ("a"))),
              SSEStreamItem.event (Except.ok (AnthropicEvent.contentBlockDelta 0 ("b")))]
            ("") 0).1) :=
  (C3_cumulative_is_concat_of_deltas (LLMProviderAPIKeys.anthropic ("key"))
    ⟨LLMType.claudeHaiku, [⟨LLMClientRole.user, ("hi")⟩], 0, none⟩
    ⟨none, true, (""),
      [SSEStreamItem.event (Except.ok (AnthropicEvent.contentBlockStart 0 ("a"))),
        SSEStreamItem.event (Except.ok (AnthropicEvent.contentBlockDelta 0 ("b")))]⟩
    ("claude-3-haiku-20240307") ("key") rfl rfl rfl rfl).2.1

/-- C10: completion returns exactly the result of stream_completion on
the same inputs, whatever the sink does with the pushed items; the
dropped receiver (every send failing) changes nothing in the returned
string or error. -/
theorem C10_completion_refines_stream_completion (sink_accepts : Nat → Bool)
    (api_key : LLMProviderAPIKeys) (request : LLMClientCompletionRequest)
    (http : AnthropicHttpOutcome) :
    completion api_key request http = (stream_completion sink_accepts api_key request http).2 := by
  unfold completion stream_completion
  cases hm : get_model_string request.model with
  | error e => rfl
  | ok m =>
    cases hk : generate_api_bearer_key api_key with
    | error e => rfl
    | ok s =>
      cases hs : http.send_error with
      | some msg => rfl
      | none =>
        by_cases hstat : http.status_success
        · simp only [hstat, if_true]
          exact congrArg Except.ok
            (stream_loop_snd_sink m (fun _ => false) sink_accepts http.events ("") 0 0)
        · simp [hstat]

/-- C2: while the focussing flag is true, an LSP signal (in particular
Diagnostics) is dropped on arrival: the state is unchanged and no
tool-box (LLM) call is made. -/
theorem C2_lsp_dropped_while_focussing (storage_fs_path : String) (st : ScratchPadState)
    (lsp_signal : LSPSignal) (h : st.focussing = true) :
    react_to_lsp_signal storage_fs_path st lsp_signal = (st, []) := by
  unfold react_to_lsp_signal
  rw [h]
  simp

/-- Witness for C2: a focussed scratch pad drops a concrete diagnostics
signal without effect. -/
theorem C2_lsp_dropped_while_focussing_witness :
    react_to_lsp_signal ("pad") ⟨true, [⟨("content"), ("file.rs")⟩], ("extra")⟩
        (LSPSignal.diagnostics [⟨("file.rs"), ("mismatched types")⟩])
      = (⟨true, [⟨("content"), ("file.rs")⟩], ("extra")⟩, []) :=
  C2_lsp_dropped_while_focussing ("pad") ⟨true, [⟨("content"), ("file.rs")⟩], ("extra")⟩
    (LSPSignal.diagnostics [⟨("file.rs"), ("mismatched types")⟩]) rfl

/-- C9: when not focussing, the diagnostics reaction keeps exactly the
diagnostics whose file path is in files_context, never mutates the
state, and makes the single diagnostics LLM call iff at least one
diagnostic survives the filter. -/
theorem C9_diagnostics_filter_gates_llm_call (storage_fs_path : String)
    (st : ScratchPadState) (diagnostics : List LSPDiagnosticError)
    (h : st.focussing = false) :
    (react_to_lsp_signal storage_fs_path st (LSPSignal.diagnostics diagnostics)).1 = st
    ∧ ((react_to_lsp_signal storage_fs_path st (LSPSignal.diagnostics diagnostics)).2 ≠ []
        ↔ ∃ d ∈ diagnostics,
            d.fs_file_path ∈ st.files_context.map (fun entry => entry.file_path))
    ∧ (react_to_lsp_signal storage_fs_path st (LSPSignal.diagnostics diagnostics)).2.length ≤ 1
    ∧ ∀ c ∈ (react_to_lsp_signal storage_fs_path st (LSPSignal.diagnostics diagnostics)).2,
        c = ToolBoxCall.scratch_pad_diagnostics storage_fs_path
          ((diagnostics.filter (fun d =>
              decide (d.fs_file_path ∈ st.files_context.map (fun entry => entry.file_path)))).map
            diagnostic_format)
          (st.files_context.map (fun entry => entry.file_content)) st.extra_context := by
  have hfil : diagnostics.filter (fun d =>
        (st.files_context.map (fun entry => entry.file_path)).contains d.fs_file_path)
      = diagnostics.filter (fun d =>
          decide (d.fs_file_path ∈ st.files_context.map (fun entry => entry.file_path))) := by
    refine List.filter_congr ?_
    intro d _
    by_cases hmem : d.fs_file_path ∈ st.files_context.map (fun entry => entry.file_path) <;>
      simp [hmem, List.elem_iff]
  unfold react_to_lsp_signal react_to_diagnostics
  rw [h]
  simp only [Bool.false_eq_true, if_false]
  rw [hfil]
  by_cases hempty : (diagnostics.filter (fun d =>
      decide (d.fs_file_path ∈ st.files_context.map (fun entry => entry.file_path)))).isEmpty
  · rw [if_pos (by simpa using hempty)]
    refine ⟨rfl, ?_, by simp, by simp⟩
    simp only [ne_eq, not_true_eq_false, false_iff]
    rw [List.isEmpty_iff, List.filter_eq_nil_iff] at hempty
    intro hexists
    obtain ⟨d, hd, hmem⟩ := hexists
    exact absurd (by simpa using hmem) (by simpa using hempty d hd)
  · rw [if_neg (by simpa using hempty)]
    refine ⟨rfl, ?_, by simp, by simp⟩
    simp only [ne_eq, List.cons_ne_nil, not_false_eq_true, true_iff]
    rw [List.isEmpty_iff, List.filter_eq_nil_iff] at hempty
    push_neg at hempty
    obtain ⟨d, hd, hmem⟩ := hempty
    exact ⟨d, hd, by simpa using hmem⟩

/-- Witness for C9: one matching and one non-matching diagnostic
produce exactly one LLM call built from the matching one. -/
theorem C9_diagnostics_filter_gates_llm_call_witness :
    (react_to_lsp_signal ("pad") ⟨false, [⟨("content"), ("a.rs")⟩], ("extra")⟩
        (LSPSignal.diagnostics [⟨("a.rs"), ("err1")⟩, ⟨("b.rs"), ("err2")⟩])).1
      = ⟨false, [⟨("content"), ("a.rs")⟩], ("extra")⟩
    ∧ ((react_to_lsp_signal ("pad") ⟨false, [⟨("content"), ("a.rs")⟩], ("extra")⟩
        (LSPSignal.diagnostics [⟨("a.rs"), ("err1")⟩, ⟨("b.rs"), ("err2")⟩])).2 ≠ []
        ↔ ∃ d ∈ [(⟨("a.rs"), ("err1")⟩ : LSPDiagnosticError), ⟨("b.rs"), ("err2")⟩],
            d.fs_file_path ∈ ([⟨("content"), ("a.rs")⟩] :
                List ScratchPadFilesActive).map (fun entry => entry.file_path)) := by
  have h := C9_diagnostics_filter_gates_llm_call ("pad")
    ⟨false, [⟨("content"), ("a.rs")⟩], ("extra")⟩
    [⟨("a.rs"), ("err1")⟩, ⟨("b.rs"), ("err2")⟩] rfl
  exact ⟨h.1, h.2.1⟩

/-- Each non-panicking run of the executor loop adds the number of
successful step executions to the checkpoint and never touches the
steps. -/
theorem plan_loop_adds (outcomes : List Bool) :
    ∀ (p q : Plan), plan_loop p outcomes = some q →
      q.checkpoint = p.checkpoint + outcomes.count true ∧ q.steps = p.steps := by
  induction outcomes with
  | nil =>
    intro p q h
    simp only [plan_loop, Option.some.injEq] at h
    subst h
    simp
  | cons b rest ih =>
    intro p q h
    simp only [plan_loop] at h
    cases hit : plan_loop_iteration p b with
    | none => rw [hit] at h; cases h
    | some d2 =>
      rw [hit] at h
      obtain ⟨h1, h2⟩ := ih d2 q h
      unfold plan_loop_iteration at hit
      cases hget : p.steps.get? p.checkpoint with
      | none => rw [hget] at hit; cases hit
      | some step =>
        rw [hget] at hit
        cases b with
        | false =>
          simp only [if_false, Option.some.injEq, Bool.false_eq_true] at hit
          subst hit
          refine ⟨?_, h2⟩
          rw [h1]
          simp [List.count_cons]
        | true =>
          simp only [if_true, Option.some.injEq] at hit
          subst hit
          refine ⟨?_, by simpa [Plan.increment_checkpoint] using h2⟩
          rw [h1]
          simp [Plan.increment_checkpoint, List.count_cons]
          omega

/-- C6: across the executor loop, a successful execute_step advances the
persisted checkpoint by exactly one, a failed one leaves it unchanged,
and after any run the checkpoint equals the initial checkpoint plus the
number of successful steps, with the step list untouched. -/
theorem C6_checkpoint_counts_successes (p : Plan) (outcomes : List Bool) (q : Plan)
    (h : plan_loop p outcomes = some q) :
    q.checkpoint = p.checkpoint + outcomes.count true
    ∧ q.steps = p.steps
    ∧ (∀ d e : Plan, plan_loop_iteration d true = some e →
        e.checkpoint = d.checkpoint + 1 ∧ e.steps = d.steps)
    ∧ (∀ d e : Plan, plan_loop_iteration d false = some e → e = d) := by
  obtain ⟨h1, h2⟩ := plan_loop_adds outcomes p q h
  refine ⟨h1, h2, ?_, ?_⟩
  · intro d e hde
    unfold plan_loop_iteration at hde
    cases hget : d.steps.get? d.checkpoint with
    | none => rw [hget] at hde; cases hde
    | some step =>
      rw [hget] at hde
      simp only [if_true, Option.some.injEq] at hde
      subst hde
      exact ⟨rfl, rfl⟩
  · intro d e hde
    unfold plan_loop_iteration at hde
    cases hget : d.steps.get? d.checkpoint with
    | none => rw [hget] at hde; cases hde
    | some step =>
      rw [hget] at hde
      simpa using hde.symm

/-- Witness for C6: a two-step plan run through success, failure,
success ends at checkpoint 2. -/
theorem C6_checkpoint_counts_successes_witness :
    (Plan.mk [⟨("s1"), ("i1")⟩, ⟨("s2"), ("i2")⟩] 2).checkpoint
        = (Plan.mk [⟨("s1"), ("i1")⟩, ⟨("s2"), ("i2")⟩] 0).checkpoint
          + ([true, false, true] : List Bool).count true
    ∧ (Plan.mk [⟨("s1"), ("i1")⟩, ⟨("s2"), ("i2")⟩] 2).steps
        = (Plan.mk [⟨("s1"), ("i1")⟩, ⟨("s2"), ("i2")⟩] 0).steps :=
  ⟨(C6_checkpoint_counts_successes (Plan.mk [⟨("s1"), ("i1")⟩, ⟨("s2"), ("i2")⟩] 0)
      [true, false, true] (Plan.mk [⟨("s1"), ("i1")⟩, ⟨("s2"), ("i2")⟩] 2) (by decide)).1,
    (C6_checkpoint_counts_successes (Plan.mk [⟨("s1"), ("i1")⟩, ⟨("s2"), ("i2")⟩] 0)
      [true, false, true] (Plan.mk [⟨("s1"), ("i1")⟩, ⟨("s2"), ("i2")⟩] 2) (by decide)).2.1⟩

/-- C7: the Anthropic request mapping extracts the first system-role
content into the system field, keeps exactly the user- and
assistant-role messages in their original order, and defaults the
missing max-output-tokens to 8192 for the Sonnet model and 4096 for
every other model (an explicit value is passed through). -/
theorem C7_anthropic_request_mapping (completion_request : LLMClientCompletionRequest)
    (model_str : String) :
    (AnthropicRequest.from_client_completion_request completion_request model_str).system
        = (completion_request.messages.find?
            (fun mess => mess.role == LLMClientRole.system)).map (fun mess => mess.content)
    ∧ (AnthropicRequest.from_client_completion_request completion_request model_str).messages
        = (completion_request.messages.filter (fun mess =>
              mess.role == LLMClientRole.user || mess.role == LLMClientRole.assistant)).map
            (fun mess => AnthropicMessage.mk mess.role.to_string mess.content)
    ∧ (completion_request.max_tokens = none →
        (AnthropicRequest.from_client_completion_request completion_request model_str).max_tokens
          = some (if completion_request.model = LLMType.claudeSonnet then 8192 else 4096))
    ∧ ∀ tokens, completion_request.max_tokens = some tokens →
        (AnthropicRequest.from_client_completion_request completion_request model_str).max_tokens
          = some tokens := by
  have hsys : (fun mess : LLMClientMessage => mess.role.is_system)
      = (fun mess : LLMClientMessage => mess.role == LLMClientRole.system) := by
    funext mess
    cases mess.role <;> rfl
  have husr : (fun mess : LLMClientMessage => mess.role.is_user || mess.role.is_assistant)
      = (fun mess : LLMClientMessage =>
          mess.role == LLMClientRole.user || mess.role == LLMClientRole.assistant) := by
    funext mess
    cases mess.role <;> rfl
  refine ⟨?_, ?_, ?_, ?_⟩
  · unfold AnthropicRequest.from_client_completion_request
    rw [hsys]
  · unfold AnthropicRequest.from_client_completion_request
    rw [husr]
  · intro h
    unfold AnthropicRequest.from_client_completion_request
    rw [h]
    by_cases hmod : completion_request.model = LLMType.claudeSonnet <;> simp [hmod]
  · intro tokens h
    unfold AnthropicRequest.from_client_completion_request
    rw [h]

/-- Witness for C7: a request without max tokens on the Sonnet model
maps to max_tokens 8192, and on the Opus model to 4096. -/
theorem C7_anthropic_request_mapping_witness :
    (AnthropicRequest.from_client_completion_request
        ⟨LLMType.claudeSonnet, [⟨LLMClientRole.system, ("sys")⟩, ⟨LLMClientRole.user, ("u")⟩],
          0, none⟩ ("model")).max_tokens
      = some (if LLMType.claudeSonnet = LLMType.claudeSonnet then 8192 else 4096)
    ∧ (AnthropicRequest.from_client_completion_request
        ⟨LLMType.claudeOpus, [⟨LLMClientRole.user, ("u")⟩], 0, none⟩ ("model")).max_tokens
      = some (if LLMType.claudeOpus = LLMType.claudeSonnet then 8192 else 4096) :=
  ⟨(C7_anthropic_request_mapping
      ⟨LLMType.claudeSonnet, [⟨LLMClientRole.system, ("sys")⟩, ⟨LLMClientRole.user, ("u")⟩],
        0, none⟩ ("model")).2.2.1 rfl,
    (C7_anthropic_request_mapping
      ⟨LLMType.claudeOpus, [⟨LLMClientRole.user, ("u")⟩], 0, none⟩ ("model")).2.2.1 rfl⟩

/-- C8: for a go-to-definition input, invoke POSTs the serialized
request to editor_url ++ /go_to_definition, and every failure is exactly
one of two errors: a transport failure of the POST yields
ErrorCommunicatingWithEditor, while a serialization or
response-deserialization failure yields SerdeConversionFailed. -/
theorem C8_go_to_definition_error_mapping (world : EditorHttpWorld) (input : ToolInput)
    (context : GoToDefinitionRequest) (h : input = ToolInput.goToDefinition context) :
    (∀ endpoint body, (LSPGoToDefinition.invoke world input).2 = some (endpoint, body) →
        endpoint = context.editor_url ++ ("/go_to_definition")
        ∧ world.to_string_result context = Except.ok body)
    ∧ (∀ err, (LSPGoToDefinition.invoke world input).1 = Except.error err →
        err = ToolError.errorCommunicatingWithEditor ∨ err = ToolError.serdeConversionFailed)
    ∧ (world.to_string_result context = Except.error () →
        (LSPGoToDefinition.invoke world input).1 = Except.error ToolError.serdeConversionFailed)
    ∧ (∀ body, world.to_string_result context = Except.ok body →
        world.post_result (context.editor_url ++ ("/go_to_definition")) body = Except.error () →
        (LSPGoToDefinition.invoke world input).1
          = Except.error ToolError.errorCommunicatingWithEditor)
    ∧ (∀ body, world.to_string_result context = Except.ok body →
        world.post_result (context.editor_url ++ ("/go_to_definition")) body
            = Except.ok (Except.error ()) →
        (LSPGoToDefinition.invoke world input).1 = Except.error ToolError.serdeConversionFailed)
    ∧ ∀ body response, world.to_string_result context = Except.ok body →
        world.post_result (context.editor_url ++ ("/go_to_definition")) body
            = Except.ok (Except.ok response) →
        (LSPGoToDefinition.invoke world input).1
          = Except.ok (ToolOutput.goToDefinition response) := by
  subst h
  unfold LSPGoToDefinition.invoke ToolInput.is_go_to_definition
  cases hser : world.to_string_result context with
  | error u =>
    refine ⟨by intro endpoint body hpost; simp [hser] at hpost, ?_,
      by intro _; simp [hser], ?_, ?_, ?_⟩
    · intro err herr
      simp [hser] at herr
      simp [← herr]
    · intro body hok
      exact absurd hok (by simp)
    · intro body hok
      exact absurd hok (by simp)
    · intro body response hok
      exact absurd hok (by simp)
  | ok body0 =>
    cases hpost : world.post_result (context.editor_url ++ ("/go_to_definition")) body0 with
    | error v =>
      refine ⟨?_, ?_, ?_, ?_, ?_, ?_⟩
      · intro endpoint body hp
        simp [hser, hpost] at hp
        exact ⟨hp.1.symm, congrArg Except.ok hp.2⟩
      · intro err herr
        simp [hser, hpost] at herr
        simp [← herr]
      · intro hbad
        exact absurd hbad (by simp)
      · intro body hok hperr
        simp [hser, hpost]
      · intro body hok hpok
        have hb : body0 = body := (Except.ok.injEq _ _).mp hok
        rw [← hb] at hpok
        exact absurd (hpost.symm.trans hpok) (by simp)
      · intro body response hok hpok
        have hb : body0 = body := (Except.ok.injEq _ _).mp hok
        rw [← hb] at hpok
        exact absurd (hpost.symm.trans hpok) (by simp)
    | ok json_result =>
      cases json_result with
      | error w =>
        refine ⟨?_, ?_, ?_, ?_, ?_, ?_⟩
        · intro endpoint body hp
          simp [hser, hpost] at hp
          exact ⟨hp.1.symm, congrArg Except.ok hp.2⟩
        · intro err herr
          simp [hser, hpost] at herr
          simp [← herr]
        · intro hbad
          exact absurd hbad (by simp)
        · intro body hok hperr
          have hb : body0 = body := (Except.ok.injEq _ _).mp hok
          rw [← hb] at hperr
          exact absurd (hpost.symm.trans hperr) (by simp)
        · intro body hok hpok
          simp [hser, hpost]
        · intro body response hok hpok
          have hb : body0 = body := (Except.ok.injEq _ _).mp hok
          rw [← hb] at hpok
          have := hpost.symm.trans hpok
          simp at this
      | ok response0 =>
        refine ⟨?_, ?_, ?_, ?_, ?_, ?_⟩
        · intro endpoint body hp
          simp [hser, hpost] at hp
          exact ⟨hp.1.symm, congrArg Except.ok hp.2⟩
        · intro err herr
          simp [hser, hpost] at herr
        · intro hbad
          exact absurd hbad (by simp)
        · intro body hok hperr
          have hb : body0 = body := (Except.ok.injEq _ _).mp hok
          rw [← hb] at hperr
          exact absurd (hpost.symm.trans hperr) (by simp)
        · intro body hok hpok
          have hb : body0 = body := (Except.ok.injEq _ _).mp hok
          rw [← hb] at hpok
          have := hpost.symm.trans hpok
          simp at this
        · intro body response hok hpok
          have hb : body0 = body := (Except.ok.injEq _ _).mp hok
          rw [← hb] at hpok
          have hr : response0 = response := by
            have := hpost.symm.trans hpok
            simpa using this
          simp [hser, hpost, hr]

/-- Witness for C8: a world whose transport fails makes invoke return
ErrorCommunicatingWithEditor for a concrete request. -/
theorem C8_go_to_definition_error_mapping_witness :
    (LSPGoToDefinition.invoke
        ⟨fun _ => Except.ok ("body"), fun _ _ => Except.error ()⟩
        (ToolInput.goToDefinition ⟨("a.rs"), ("http://e"), ⟨1, 2, 0⟩⟩)).1
      = Except.error ToolError.errorCommunicatingWithEditor :=
  (C8_go_to_definition_error_mapping
      ⟨fun _ => Except.ok ("body"), fun _ _ => Except.error ()⟩
      (ToolInput.goToDefinition ⟨("a.rs"), ("http://e"), ⟨1, 2, 0⟩⟩)
      ⟨("a.rs"), ("http://e"), ⟨1, 2, 0⟩⟩ rfl).2.2.2.1 ("body") rfl rfl

/-- C4 counterexample: for a concrete anchor batch with one symbol, the
trace of human_message_anchor has no point where focussing is set back
to false before the EditorStateChange emission: the claimed order (reset
focussing, then emit) is false, the source emits EditorStateChange first
and resets focussing after. -/
theorem C4_counterexample :
    ¬ ∃ i j : Fin (human_message_anchor ⟨false, [], ("")⟩ ("q") 1
          (fun _ => Except.ok ⟨("r")⟩)).2.length,
        i < j
        ∧ (human_message_anchor ⟨false, [], ("")⟩ ("q") 1
            (fun _ => Except.ok ⟨("r")⟩)).2.get i = AnchorAction.set_focussing false
        ∧ is_editor_state_change
            ((human_message_anchor ⟨false, [], ("")⟩ ("q") 1
              (fun _ => Except.ok ⟨("r")⟩)).2.get j) = true := by
  decide

/-- C4 (amended): processing a Human(Anchor) event performs its effects
in this order: set focussing to true, fan out one per-symbol edit
request per anchored symbol and await all replies, emit the
EditorStateChange event, and only then set focussing back to false. -/
theorem C4_anchor_effect_order (st : ScratchPadState) (user_query : String) (n : Nat)
    (replies : Nat → Except Unit SymbolEventResponse) :
    ∃ before fan,
      (human_message_anchor st user_query n replies).2
        = before ++ AnchorAction.set_focussing true :: fan
          ++ [AnchorAction.reaction_send
                (ReactionEvent.editorStateChange (edits_done n replies) user_query),
              AnchorAction.set_focussing false,
              AnchorAction.ui_code_iteration_finished]
      ∧ (∀ a ∈ before, a = AnchorAction.symbol_to_edit_request
          ∨ a = AnchorAction.reaction_send ReactionEvent.humanAnchor)
      ∧ (∀ a ∈ fan, (∃ c, a = AnchorAction.send_symbol_event c)
          ∨ ∃ c, a = AnchorAction.await_reply c)
      ∧ (human_message_anchor st user_query n replies).1.focussing = false := by
  refine ⟨[AnchorAction.symbol_to_edit_request,
      AnchorAction.reaction_send ReactionEvent.humanAnchor], fan_out_edits n, ?_, ?_, ?_, rfl⟩
  · simp [human_message_anchor]
  · intro a ha
    simp at ha
    rcases ha with h | h
    · exact Or.inl h
    · exact Or.inr h
  · intro a ha
    unfold fan_out_edits at ha
    simp [List.mem_flatten, List.mem_map] at ha
    obtain ⟨i, hi, hmem⟩ := ha
    rcases hmem with h | h
    · exact Or.inl ⟨i, h⟩
    · exact Or.inr ⟨i, h⟩

/-- Witness for C4 (amended) at a concrete one-symbol anchor batch. -/
theorem C4_anchor_effect_order_witness :
    ∃ before fan,
      (human_message_anchor ⟨false, [], ("")⟩ ("q") 1 (fun _ => Except.ok ⟨("r")⟩)).2
        = before ++ AnchorAction.set_focussing true :: fan
          ++ [AnchorAction.reaction_send
                (ReactionEvent.editorStateChange
                  (edits_done 1 (fun _ => Except.ok ⟨("r")⟩)) ("q")),
              AnchorAction.set_focussing false,
              AnchorAction.ui_code_iteration_finished]
      ∧ (∀ a ∈ before, a = AnchorAction.symbol_to_edit_request
          ∨ a = AnchorAction.reaction_send ReactionEvent.humanAnchor)
      ∧ (∀ a ∈ fan, (∃ c, a = AnchorAction.send_symbol_event c)
          ∨ ∃ c, a = AnchorAction.await_reply c)
      ∧ (human_message_anchor ⟨false, [], ("")⟩ ("q") 1
          (fun _ => Except.ok ⟨("r")⟩)).1.focussing = false :=
  C4_anchor_effect_order ⟨false, [], ("")⟩ ("q") 1 (fun _ => Except.ok ⟨("r")⟩)

/-- Under the buffer_unordered admissibility discipline, the number of
futures in flight never exceeds the limit at any point of the
execution. -/
theorem in_flight_le_of_admissible (limit : Nat) :
    ∀ (pre : List PollEvent) (k : Nat) (suf : List PollEvent),
      admissible limit k (pre ++ suf) = true → k ≤ limit → in_flight k pre ≤ limit := by
  intro pre
  induction pre with
  | nil =>
    intro k suf _ hk
    simpa [in_flight] using hk
  | cons e rest ih =>
    intro k suf hadm hk
    cases e with
    | begin_future i =>
      simp only [List.cons_append, admissible, Bool.and_eq_true, decide_eq_true_eq] at hadm
      simpa [in_flight] using ih (k + 1) suf hadm.2 (by omega)
    | end_future i =>
      simp only [List.cons_append, admissible, Bool.and_eq_true, decide_eq_true_eq] at hadm
      simpa [in_flight] using ih (k - 1) suf hadm.2 (by omega)

/-- The fan-out sends exactly the channels 0..n-1, in order. -/
theorem fan_out_send_channels (n : Nat) :
    (fan_out_edits n).filterMap send_channel = List.range n := by
  induction n with
  | zero => rfl
  | succ n2 ih =>
    unfold fan_out_edits at ih ⊢
    rw [List.range_succ, List.map_append, List.flatten_append, List.filterMap_append, ih]
    simp [send_channel]

/-- The fan-out awaits exactly the channels 0..n-1, in order. -/
theorem fan_out_await_channels (n : Nat) :
    (fan_out_edits n).filterMap await_channel = List.range n := by
  induction n with
  | zero => rfl
  | succ n2 ih =>
    unfold fan_out_edits at ih ⊢
    rw [List.range_succ, List.map_append, List.flatten_append, List.filterMap_append, ih]
    simp [await_channel]

/-- No action of the fan-out section is an EditorStateChange emission. -/
theorem fan_out_no_esc (n : Nat) :
    ∀ a ∈ fan_out_edits n, is_editor_state_change a = false := by
  intro a ha
  unfold fan_out_edits at ha
  simp [List.mem_flatten, List.mem_map] at ha
  obtain ⟨i, hi, hmem⟩ := ha
  rcases hmem with h | h
  · rw [h]; rfl
  · rw [h]; rfl

/-- C5: the anchor fan-out caps concurrency at buffer_unordered_limit
(100), pairs every request with its own fresh oneshot channel (the
channels sent are exactly 0..n-1, with no duplicate, each awaited),
collects exactly the replies that resolved successfully, and emits
exactly one EditorStateChange summarizing them onto the reaction
queue. -/
theorem C5_fan_out_bounded_fresh_collected (st : ScratchPadState) (user_query : String)
    (n : Nat) (replies : Nat → Except Unit SymbolEventResponse) (evs : List PollEvent)
    (hadm : admissible buffer_unordered_limit 0 evs = true) :
    buffer_unordered_limit = 100
    ∧ (∀ pre suf, evs = pre ++ suf → in_flight 0 pre ≤ buffer_unordered_limit)
    ∧ ((human_message_anchor st user_query n replies).2.filterMap send_channel
        = List.range n)
    ∧ ((human_message_anchor st user_query n replies).2.filterMap send_channel).Nodup
    ∧ ((human_message_anchor st user_query n replies).2.filterMap await_channel
        = List.range n)
    ∧ (∀ r, r ∈ edits_done n replies ↔ ∃ i, i < n ∧ replies i = Except.ok r)
    ∧ ((human_message_anchor st user_query n replies).2.countP is_editor_state_change = 1)
    ∧ AnchorAction.reaction_send
        (ReactionEvent.editorStateChange (edits_done n replies) user_query)
      ∈ (human_message_anchor st user_query n replies).2 := by
  have htrace : (human_message_anchor st user_query n replies).2
      = [AnchorAction.symbol_to_edit_request,
          AnchorAction.reaction_send ReactionEvent.humanAnchor,
          AnchorAction.set_focussing true]
        ++ fan_out_edits n
        ++ [AnchorAction.reaction_send
              (ReactionEvent.editorStateChange (edits_done n replies) user_query),
            AnchorAction.set_focussing false,
            AnchorAction.ui_code_iteration_finished] := rfl
  refine ⟨rfl, ?_, ?_, ?_, ?_, ?_, ?_, ?_⟩
  · intro pre suf hsplit
    exact in_flight_le_of_admissible buffer_unordered_limit pre 0 suf
      (by rw [← hsplit]; exact hadm) (by omega)
  · rw [htrace, List.filterMap_append, List.filterMap_append, fan_out_send_channels]
    simp [send_channel]
  · rw [htrace, List.filterMap_append, List.filterMap_append, fan_out_send_channels]
    simpa [send_channel] using List.nodup_range n
  · rw [htrace, List.filterMap_append, List.filterMap_append, fan_out_await_channels]
    simp [await_channel]
  · intro r
    unfold edits_done
    have htop : ∀ (x : Except Unit SymbolEventResponse),
        x.toOption = some r ↔ x = Except.ok r := by
      intro x
      cases x <;> simp [Except.toOption]
    simp [List.mem_filterMap, List.mem_range, htop]
  · rw [htrace, List.countP_append, List.countP_append]
    have hfan : (fan_out_edits n).countP is_editor_state_change = 0 := by
      rw [List.countP_eq_zero]
      intro a ha
      simp [fan_out_no_esc n a ha]
    rw [hfan]
    simp [is_editor_state_change, List.countP_cons]
  · rw [htrace]
    simp

/-- Witness for C5: a two-symbol batch with one failing reply under an
admissible two-task schedule. -/
theorem C5_fan_out_bounded_fresh_collected_witness :
    ((human_message_anchor ⟨false, [], ("")⟩ ("q") 2
        (fun i => if i = 0 then Except.ok ⟨("a")⟩ else Except.error ())).2.filterMap send_channel
      = List.range 2)
    ∧ ((human_message_anchor ⟨false, [], ("")⟩ ("q") 2
        (fun i => if i = 0 then Except.ok ⟨("a")⟩ else Except.error ())).2.countP
          is_editor_state_change = 1) := by
  have h := C5_fan_out_bounded_fresh_collected ⟨false, [], ("")⟩ ("q") 2
    (fun i => if i = 0 then Except.ok ⟨("a")⟩ else Except.error ())
    [PollEvent.begin_future 0, PollEvent.begin_future 1,
      PollEvent.end_future 1, PollEvent.end_future 0]
    (by decide)
  exact ⟨h.2.2.1, h.2.2.2.2.2.2.1⟩

end Sidecar
